import Mathlib

/-!
Verification of the staging ring-buffer allocator of the ReDX renderer.

The allocator is `D3D12::Renderer::reserveChunkOfUploadBuffer`
(Source/D3D12/Renderer.hpp, lines 55-122) together with
`D3D12::Renderer::executeCopyCommands` (Source/D3D12/Renderer.cpp, lines
469-491) acting on the `UploadRingBuffer` cursors declared in
Source/D3D12/HelperStructs.h (lines 28-37).

Machine integers: the cursors are C++ `uint` (32 bit); we model them as `Nat`
and insert `% 2^32` exactly where the source performs a `static_cast<uint>`.
The intermediate `alignedOffset` is a C++ `uint64`; for the buffer sizes the
renderer can create (`capacity < 2^32`) and the alignments its callers
instantiate (4 and the constant-buffer placement alignment) the 64-bit
arithmetic cannot overflow, so it is modelled as plain `Nat`.
`remainingCapacity`/`alignedCapacity` are C++ `int64` and are modelled as
`Int`.  The `assert(size > 0)` and the `#ifndef NDEBUG` capacity check are
embedded as error results (debug-build semantics).
-/

/-- `UINT_MAX`, the sentinel stored into `prevSegStart` by a blocking flush
(Renderer.cpp line 489). -/
def UINT_MAX : Nat := 4294967295

/-- `2^32`; a `static_cast<uint>` of a `uint64` value `v` is `v % U32`. -/
def U32 : Nat := 4294967296

/-- The `UploadRingBuffer` cursor state (HelperStructs.h lines 28-37).  The
`resource`/`begin` fields are the mapped memory itself and carry no protocol
state; `begin` is assumed aligned, so aligning the address `begin + offset`
(Renderer.hpp line 60) is aligning `offset`. -/
structure UploadRingBuffer where
  capacity     : Nat
  offset       : Nat
  prevSegStart : Nat
  currSegStart : Nat
deriving Repr, DecidableEq

/-- Modelled from the spec: the repository's `align<alignment>` helper is
declared in headers missing from the sources (only its uses survive); the
spec (section 4.1) describes it as `roundUp(offset, alignment)`, the least
multiple of `alignment` that is not below `offset`.  For a power of two this
coincides with the C++ bit trick `(x + a - 1) & ~(a - 1)`. -/
def roundUp (x a : Nat) : Nat := ((x + a - 1) / a) * a

/-- Observable actions of the allocator: `handout lo hi` is the byte range
`[lo, hi)` returned by a reserve call; `submit tok segStart segEnd` is a batch
submission (`executeCommandList` + fence insertion) of the copy commands
accumulated over the segment from `segStart` to `segEnd`; `wait tok` is a
thread-blocking wait until fence value `tok` is reached. -/
inductive CopyEvent where
  | handout (lo hi : Nat)
  | submit  (tok segStart segEnd : Nat)
  | wait    (tok : Nat)
deriving Repr, DecidableEq

/-- Renderer state relevant to the upload ring: the cursor state plus the
fence value the next submission will signal (`m_fenceValue` of the copy
context, pre-incremented by `insertFence`). -/
structure RendererState where
  buf            : UploadRingBuffer
  nextFenceValue : Nat
deriving Repr, DecidableEq

/-- Cursor effect of `executeCopyCommands` (Renderer.cpp lines 488-490):
`prevSegStart = immediateCopy ? UINT_MAX : currSegStart;
 currSegStart = offset;`. -/
def executeCopyCommandsState (immediateCopy : Bool) (b : UploadRingBuffer) :
    UploadRingBuffer :=
  { b with prevSegStart := if immediateCopy then UINT_MAX else b.currSegStart,
           currSegStart := b.offset }

/-- Modelled from the spec: `executeCopyCommands` (Renderer.cpp lines
469-491).  The bodies of `CommandContext::executeCommandList`,
`syncThread` and `resetCommandAllocator` are in headers missing from the
sources, so their synchronization behaviour is modelled from the spec
(sections 4.3, 6) and from the source's own comments:

* `executeCommandList(0)` submits the accumulated copy commands (the segment
  from `currSegStart` to `offset`) and returns the inserted fence value:
  event `submit tok currSegStart offset` (the `submitBatch` of spec
  section 6);
* if `immediateCopy`, `syncThread(insertedValue)` blocks on the just
  inserted fence: event `wait tok` (the blocking flush of spec section 4.3);
* otherwise, per the comment at Renderer.cpp lines 480-482 ("For single- and
  double-buffered copy contexts, resetCommandAllocator() will take care of
  waiting until the previous copy command list has completed execution") and
  the declaration `CopyContext<2, 1> m_copyContext` (Renderer.h line 76,
  double-buffered), resetting the allocator blocks until the previously
  submitted command list (fence value `tok - 1`) has completed: event
  `wait (tok - 1)` when a previous submission exists.

Afterwards the cursors are updated as in `executeCopyCommandsState`. -/
def executeCopyCommands (immediateCopy : Bool) (σ : RendererState) :
    RendererState × List CopyEvent :=
  let tok := σ.nextFenceValue
  let waitEvs : List CopyEvent :=
    if immediateCopy then [CopyEvent.wait tok]
    else if 2 ≤ tok then [CopyEvent.wait (tok - 1)] else []
  ({ buf := executeCopyCommandsState immediateCopy σ.buf,
     nextFenceValue := tok + 1 },
   CopyEvent.submit tok σ.buf.currSegStart σ.buf.offset :: waitEvs)

/-- The boolean scratchpad of one `reserveChunkOfUploadBuffer` call: the
`const` locals computed at Renderer.hpp lines 60-110 (after the wrap-around
recomputation), recorded so that theorems can speak about them. -/
structure ReserveLog where
  alignedOffset : Nat
  alignedEnd    : Nat
  wrapAround    : Bool
  caseA         : Bool
  caseB         : Bool
  caseC         : Bool
  caseD         : Bool
  caseE         : Bool
deriving Repr, DecidableEq

/-- `executeAllCopies = caseA | caseB | caseC` (Renderer.hpp line 99). -/
def ReserveLog.executeAllCopies (l : ReserveLog) : Bool :=
  l.caseA || l.caseB || l.caseC

/-- `waitForPrevCopies = caseD | caseE` (Renderer.hpp line 110). -/
def ReserveLog.waitForPrevCopies (l : ReserveLog) : Bool :=
  l.caseD || l.caseE

/-- The pure computations of `reserveChunkOfUploadBuffer`
(Renderer.hpp lines 60-110), evaluated on the pre-call cursor state `b`:

* `alignedOffset = align<alignment>(begin + offset) - begin` (lines 60-61);
* `remainingCapacity = capacity - alignedOffset` as `int64`,
  `wrapAround = remainingCapacity < size` (lines 63-64);
* on wrap-around, `alignedOffset` is recomputed from the buffer start
  (lines 67-68);
* `alignedEnd = static_cast<uint>(alignedOffset + size)` (line 82);
* the five hazard booleans of lines 88-108, all evaluated against the
  pre-call `offset` (the source stores the new offset only at line 112,
  after computing them). -/
def reserveLogOf (alignment size : Nat) (b : UploadRingBuffer) : ReserveLog :=
  let alignedOffset0 := roundUp b.offset alignment
  let wrapAround : Bool :=
    decide ((b.capacity : Int) - (alignedOffset0 : Int) < (size : Int))
  let alignedOffset : Nat := if wrapAround then roundUp 0 alignment else alignedOffset0
  let alignedEnd : Nat := (alignedOffset + size) % U32
  { alignedOffset := alignedOffset % U32
    alignedEnd    := alignedEnd
    wrapAround    := wrapAround
    caseA := decide (b.offset < b.currSegStart) && decide (b.currSegStart ≤ alignedEnd)
    caseB := decide (b.currSegStart ≤ alignedEnd) && wrapAround
    caseC := decide (b.offset < b.currSegStart) && wrapAround
    caseD := decide (b.offset ≤ b.prevSegStart) && decide (b.prevSegStart < alignedEnd)
    caseE := decide (b.prevSegStart < alignedEnd) && wrapAround }

/-- State update and events of the tail of `reserveChunkOfUploadBuffer`
(Renderer.hpp lines 111-121): store `alignedOffset` into `offset`, call
`executeCopyCommands(executeAllCopies)` when any hazard holds, store
`alignedEnd` into `offset`, and hand out the range
`[alignedOffset, alignedEnd)`. -/
def reserveApply (l : ReserveLog) (σ : RendererState) :
    RendererState × List CopyEvent :=
  let σ1 : RendererState := { σ with buf := { σ.buf with offset := l.alignedOffset } }
  let flushed := if l.executeAllCopies || l.waitForPrevCopies
                 then executeCopyCommands l.executeAllCopies σ1
                 else (σ1, [])
  ({ flushed.1 with buf := { flushed.1.buf with offset := l.alignedEnd } },
   flushed.2 ++ [CopyEvent.handout l.alignedOffset l.alignedEnd])

/-- `Renderer::reserveChunkOfUploadBuffer<alignment>(size)`
(Renderer.hpp lines 55-122).  Returns the new state, the returned offset
(`static_cast<uint>(alignedOffset)`, line 121) and the observable events.
The `assert(size > 0)` (line 58) and the fatal `TERMINATE()` on insufficient
capacity after wrap-around (lines 70-80, debug builds) are error results. -/
def reserveChunkOfUploadBuffer (alignment size : Nat) (σ : RendererState) :
    Except String (RendererState × Nat × List CopyEvent) :=
  if size = 0 then
    Except.error "assert failed: size > 0"
  else
    let l := reserveLogOf alignment size σ.buf
    if l.wrapAround &&
        decide ((σ.buf.capacity : Int) - (roundUp 0 alignment : Int) < (size : Int)) then
      Except.error "Insufficient upload buffer capacity"
    else
      let r := reserveApply l σ
      Except.ok (r.1, l.alignedOffset, r.2)

/-- Operations the producer thread can perform on the upload ring:
a reserve (`reserveChunkOfUploadBuffer`, also reached through
`copyToUploadBuffer`/`write`) or an explicit flush
(`executeCopyCommands(immediateCopy)`). -/
inductive CopyOp where
  | reserve (alignment size : Nat)
  | flush   (immediateCopy : Bool)
deriving Repr, DecidableEq

/-- One producer step. -/
def stepOp (σ : RendererState) : CopyOp → Except String (RendererState × List CopyEvent)
  | CopyOp.reserve a n =>
      (reserveChunkOfUploadBuffer a n σ).map (fun r => (r.1, r.2.2))
  | CopyOp.flush b => Except.ok (executeCopyCommands b σ)

/-- Run a sequence of producer operations, concatenating the emitted events. -/
def runOps (σ : RendererState) : List CopyOp → Except String (RendererState × List CopyEvent)
  | [] => Except.ok (σ, [])
  | op :: ops =>
    match stepOp σ op with
    | Except.error e => Except.error e
    | Except.ok (σ1, evs1) =>
      match runOps σ1 ops with
      | Except.error e => Except.error e
      | Except.ok (σ2, evs2) => Except.ok (σ2, evs1 ++ evs2)

/-- Modelled from the spec: the freshly constructed `UploadRingBuffer`
(its constructor lives in a source file missing from the sources).  Spec
sections 3 and 4.2: `offset` starts at the buffer start, there is no pending
data to protect (`prevSegStart` carries the sentinel), and the current
segment is empty (`currSegStart == offset`, the configuration the source
comment at Renderer.hpp lines 84-86 calls perfectly valid).  The first fence
inserted by the copy context has value 1. -/
def initState (capacity : Nat) : RendererState :=
  { buf := { capacity := capacity, offset := 0,
             prevSegStart := UINT_MAX, currSegStart := 0 },
    nextFenceValue := 1 }

/-! ## Helper lemmas about the embedded definitions -/

theorem roundUp_zero (a : Nat) : roundUp 0 a = 0 := by
  unfold roundUp
  rcases a with _ | a
  · rfl
  · simp [Nat.div_eq_of_lt (Nat.lt_succ_self a)]

theorem roundUp_le (x a : Nat) : roundUp x a ≤ x + a - 1 := by
  unfold roundUp
  have h := Nat.div_mul_le_self (x + a - 1) a
  omega

theorem le_roundUp (x a : Nat) (ha : 0 < a) : x ≤ roundUp x a := by
  unfold roundUp
  have h := Nat.div_add_mod (x + a - 1) a
  have hm : (x + a - 1) % a < a := Nat.mod_lt _ ha
  set q := (x + a - 1) / a with hq
  have : q * a = a * q := Nat.mul_comm _ _
  omega

theorem roundUp_mod (x a : Nat) : roundUp x a % a = 0 := by
  unfold roundUp
  exact Nat.mul_mod_left _ _

theorem reserveLog_wrap (a n : Nat) (b : UploadRingBuffer) :
    (reserveLogOf a n b).wrapAround =
      decide ((b.capacity : Int) - (roundUp b.offset a : Int) < (n : Int)) := rfl

theorem reserveLog_aO (a n : Nat) (b : UploadRingBuffer) :
    (reserveLogOf a n b).alignedOffset =
      (if (reserveLogOf a n b).wrapAround then roundUp 0 a else roundUp b.offset a) % U32 := rfl

theorem reserveLog_aE (a n : Nat) (b : UploadRingBuffer) :
    (reserveLogOf a n b).alignedEnd =
      ((if (reserveLogOf a n b).wrapAround then roundUp 0 a else roundUp b.offset a) + n) % U32 :=
  rfl

theorem reserveLog_caseA (a n : Nat) (b : UploadRingBuffer) :
    (reserveLogOf a n b).caseA =
      (decide (b.offset < b.currSegStart) &&
       decide (b.currSegStart ≤ (reserveLogOf a n b).alignedEnd)) := rfl

theorem reserveLog_caseB (a n : Nat) (b : UploadRingBuffer) :
    (reserveLogOf a n b).caseB =
      (decide (b.currSegStart ≤ (reserveLogOf a n b).alignedEnd) &&
       (reserveLogOf a n b).wrapAround) := rfl

theorem reserveLog_caseC (a n : Nat) (b : UploadRingBuffer) :
    (reserveLogOf a n b).caseC =
      (decide (b.offset < b.currSegStart) && (reserveLogOf a n b).wrapAround) := rfl

theorem reserveLog_caseD (a n : Nat) (b : UploadRingBuffer) :
    (reserveLogOf a n b).caseD =
      (decide (b.offset ≤ b.prevSegStart) &&
       decide (b.prevSegStart < (reserveLogOf a n b).alignedEnd)) := rfl

theorem reserveLog_caseE (a n : Nat) (b : UploadRingBuffer) :
    (reserveLogOf a n b).caseE =
      (decide (b.prevSegStart < (reserveLogOf a n b).alignedEnd) &&
       (reserveLogOf a n b).wrapAround) := rfl

theorem reserveApply_fst (l : ReserveLog) (σ : RendererState) :
    (reserveApply l σ).1 =
      if l.executeAllCopies || l.waitForPrevCopies then
        { buf := { capacity := σ.buf.capacity, offset := l.alignedEnd,
                   prevSegStart := if l.executeAllCopies then UINT_MAX
                                   else σ.buf.currSegStart,
                   currSegStart := l.alignedOffset },
          nextFenceValue := σ.nextFenceValue + 1 }
      else { σ with buf := { σ.buf with offset := l.alignedEnd } } := by
  unfold reserveApply executeCopyCommands executeCopyCommandsState
  split <;> rfl

theorem reserveApply_snd (l : ReserveLog) (σ : RendererState) :
    (reserveApply l σ).2 =
      (if l.executeAllCopies || l.waitForPrevCopies then
        CopyEvent.submit σ.nextFenceValue σ.buf.currSegStart l.alignedOffset ::
          (if l.executeAllCopies then [CopyEvent.wait σ.nextFenceValue]
           else if 2 ≤ σ.nextFenceValue then [CopyEvent.wait (σ.nextFenceValue - 1)]
           else [])
      else []) ++ [CopyEvent.handout l.alignedOffset l.alignedEnd] := by
  unfold reserveApply executeCopyCommands
  split <;> rfl

theorem reserve_ok_parts {alignment size : Nat} {σ σ' : RendererState}
    {off : Nat} {evs : List CopyEvent}
    (h : reserveChunkOfUploadBuffer alignment size σ = Except.ok (σ', off, evs)) :
    size ≠ 0 ∧
    ¬((reserveLogOf alignment size σ.buf).wrapAround = true ∧
      (σ.buf.capacity : Int) - (roundUp 0 alignment : Int) < (size : Int)) ∧
    σ' = (reserveApply (reserveLogOf alignment size σ.buf) σ).1 ∧
    off = (reserveLogOf alignment size σ.buf).alignedOffset ∧
    evs = (reserveApply (reserveLogOf alignment size σ.buf) σ).2 := by
  unfold reserveChunkOfUploadBuffer at h
  split at h
  · simp at h
  · dsimp only at h
    split at h
    · simp at h
    · rename_i h0 h1
      simp only [Except.ok.injEq, Prod.mk.injEq] at h
      refine ⟨h0, ?_, h.1.symm, h.2.1.symm, h.2.2.symm⟩
      intro hc
      exact h1 (by simp [hc.1, hc.2])

/-! ## C1: temporal safety of flushed ranges -/

/-- Byte ranges `[lo1, hi1)` and `[lo2, hi2)` share at least one byte. -/
def rangesOverlap (lo1 hi1 lo2 hi2 : Nat) : Prop :=
  max lo1 lo2 < min hi1 hi2

/-- Formalization of claim C1 over an event trace: whenever a reserve call
hands out a range `[lo1, hi1)` (position `i`) and the next flush after it
(position `j`, no submission strictly in between) submits the batch with
completion token `t`, then any range `[lo2, hi2)` handed out by a later
reserve call (position `k`) that overlaps `[lo1, hi1)` must be separated
from that flush by a blocking wait on a fence value that covers token `t`
(the copy queue completes its batches in submission order, so a wait on any
`t' ≥ t` confirms completion of batch `t`). -/
def FlushedRangesProtected (E : List CopyEvent) : Prop :=
  ∀ i j k lo1 hi1 t ss se lo2 hi2,
    i < j → j < k →
    E.get? i = some (CopyEvent.handout lo1 hi1) →
    E.get? j = some (CopyEvent.submit t ss se) →
    (∀ m t' ss' se', i < m → m < j → E.get? m ≠ some (CopyEvent.submit t' ss' se')) →
    E.get? k = some (CopyEvent.handout lo2 hi2) →
    rangesOverlap lo1 hi1 lo2 hi2 →
    ∃ m t', j < m ∧ m < k ∧ E.get? m = some (CopyEvent.wait t') ∧ t ≤ t'

/-- The failing producer schedule for claim C1 (capacity 256, alignment 4
throughout): fill `[0,200)`, flush blocking; then reserve 40 (range
`[200,240)`), 40 (wraps to `[0,40)`), 100 (range `[40,140)`) — none of which
triggers a hazard — flush non-blocking (submitting the wrap-around segment
from 200 to 140 as batch 2), and finally reserve 120, which wraps to
`[0,120)`. -/
def wrapHazardTrace : List CopyOp :=
  [CopyOp.reserve 4 200, CopyOp.flush true, CopyOp.reserve 4 40,
   CopyOp.reserve 4 40, CopyOp.reserve 4 100, CopyOp.flush false,
   CopyOp.reserve 4 120]

/-- The event trace the allocator produces on `wrapHazardTrace`.  The final
reserve returns `[0,120)`, overlapping the ranges `[0,40)` and `[40,140)` of
the still-in-flight batch 2, without any wait covering fence value 2: after
the wrap-around flush, `prevSegStart = 200` protects only offsets at or
above 200 (cases D/E treat it as a point), so the wrapped tail `[0,140)` of
the previous segment is left unprotected. -/
def wrapHazardEvents : List CopyEvent :=
  [CopyEvent.handout 0 200,
   CopyEvent.submit 1 0 200,
   CopyEvent.wait 1,
   CopyEvent.handout 200 240,
   CopyEvent.handout 0 40,
   CopyEvent.handout 40 140,
   CopyEvent.submit 2 200 140,
   CopyEvent.wait 1,
   CopyEvent.handout 0 120]

/-- C1: the claimed safety property fails on the code.  Running the concrete
schedule `wrapHazardTrace` succeeds and produces `wrapHazardEvents`, and that
trace violates `FlushedRangesProtected`: the range `[0,40)` handed out at
position 4 is submitted by the flush at position 6 (token 2), the later
reserve at position 8 hands out the overlapping range `[0,120)`, and no wait
on a fence value covering token 2 occurs in between (the only intervening
wait is on fence value 1). -/
theorem c1_wrapped_segment_overwritten_without_wait :
    runOps (initState 256) wrapHazardTrace =
      Except.ok ({ buf := { capacity := 256, offset := 120, prevSegStart := 200,
                            currSegStart := 140 }, nextFenceValue := 3 },
                 wrapHazardEvents) ∧
    ¬ FlushedRangesProtected wrapHazardEvents := by
  refine ⟨rfl, ?_⟩
  intro h
  obtain ⟨m, t', hm1, hm2, hev, ht⟩ :=
    h 4 6 8 0 40 2 200 140 0 120 (by omega) (by omega) rfl rfl
      (by
        intro m t' ss' se' h1 h2
        interval_cases m
        · simp [wrapHazardEvents])
      rfl (by simp [rangesOverlap])
  interval_cases m
  · simp [wrapHazardEvents] at hev
    omega

/-! ## C2, C3, C4: the hazard decision policy of one reserve call -/

/-- A state in which only hazard 1 fires: capacity 256, `offset = 240`,
`currSegStart = 10`, `prevSegStart` sentinel.  `reserve(64, align 4)` wraps
to `[0, 64)`, which crosses `currSegStart = 10` (case B) but no previous
segment exists.  This is also the spec's Scenario C state. -/
def hazard1OnlyState : RendererState :=
  { buf := { capacity := 256, offset := 240, prevSegStart := UINT_MAX,
             currSegStart := 10 },
    nextFenceValue := 7 }

/-- A state in which only hazard 2 fires: capacity 256, `offset = 0`,
`currSegStart = 0`, `prevSegStart = 20`.  `reserve(64, align 4)` produces
`[0, 64)`, which crosses the valid `prevSegStart = 20` (case D) but not
`currSegStart`. -/
def hazard2OnlyState : RendererState :=
  { buf := { capacity := 256, offset := 0, prevSegStart := 20,
             currSegStart := 0 },
    nextFenceValue := 5 }

/-- C2 counterexample: the claimed decision policy is false on the code.
First input (`hazard1OnlyState`): hazard 1 fires alone
(`executeAllCopies = true`, `waitForPrevCopies = false`), yet the flush is a
blocking one — the emitted events contain `wait 7`, a blocking wait on the
newly issued token — although the claim says a hazard-1 flush does not block
unless hazard 2 also holds.  Second input (`hazard2OnlyState`): hazard 2
fires alone (`executeAllCopies = false`, `waitForPrevCopies = true`), yet a
new flush is issued — the events contain `submit 5` — although the claim says
the allocator blocks without issuing a new flush. -/
theorem c2_decision_policy_counterexample :
    ((reserveLogOf 4 64 hazard1OnlyState.buf).executeAllCopies = true ∧
     (reserveLogOf 4 64 hazard1OnlyState.buf).waitForPrevCopies = false ∧
     reserveChunkOfUploadBuffer 4 64 hazard1OnlyState =
       Except.ok
         ({ buf := { capacity := 256, offset := 64, prevSegStart := UINT_MAX,
                     currSegStart := 0 }, nextFenceValue := 8 }, 0,
          [CopyEvent.submit 7 10 0, CopyEvent.wait 7, CopyEvent.handout 0 64]) ∧
     CopyEvent.wait 7 ∈
       [CopyEvent.submit 7 10 0, CopyEvent.wait 7, CopyEvent.handout 0 64]) ∧
    ((reserveLogOf 4 64 hazard2OnlyState.buf).executeAllCopies = false ∧
     (reserveLogOf 4 64 hazard2OnlyState.buf).waitForPrevCopies = true ∧
     reserveChunkOfUploadBuffer 4 64 hazard2OnlyState =
       Except.ok
         ({ buf := { capacity := 256, offset := 64, prevSegStart := 0,
                     currSegStart := 0 }, nextFenceValue := 6 }, 0,
          [CopyEvent.submit 5 0 0, CopyEvent.wait 4, CopyEvent.handout 0 64])) := by
  exact ⟨⟨rfl, rfl, rfl, by simp⟩, rfl, rfl, rfl⟩

/-- C2 (amended): for every successful reserve call, if hazard 1 holds
(`executeAllCopies`), the call performs a single blocking flush — one batch
submission immediately followed by a blocking wait on the newly issued
token — regardless of hazard 2; if only hazard 2 holds, the call issues a
non-blocking flush (a new batch submission), and the blocking wait on the
previously issued completion token happens inside the flush machinery
(the allocator reset), not as a wait without a submission. -/
theorem c2_hazard_decision_policy (alignment size : Nat) (σ σ' : RendererState)
    (off : Nat) (evs : List CopyEvent)
    (h : reserveChunkOfUploadBuffer alignment size σ = Except.ok (σ', off, evs)) :
    ((reserveLogOf alignment size σ.buf).executeAllCopies = true →
      evs = [CopyEvent.submit σ.nextFenceValue σ.buf.currSegStart
               (reserveLogOf alignment size σ.buf).alignedOffset,
             CopyEvent.wait σ.nextFenceValue,
             CopyEvent.handout (reserveLogOf alignment size σ.buf).alignedOffset
               (reserveLogOf alignment size σ.buf).alignedEnd]) ∧
    ((reserveLogOf alignment size σ.buf).executeAllCopies = false →
     (reserveLogOf alignment size σ.buf).waitForPrevCopies = true →
      evs = CopyEvent.submit σ.nextFenceValue σ.buf.currSegStart
               (reserveLogOf alignment size σ.buf).alignedOffset ::
            ((if 2 ≤ σ.nextFenceValue then [CopyEvent.wait (σ.nextFenceValue - 1)]
              else []) ++
             [CopyEvent.handout (reserveLogOf alignment size σ.buf).alignedOffset
               (reserveLogOf alignment size σ.buf).alignedEnd])) := by
  obtain ⟨-, -, -, -, hevs⟩ := reserve_ok_parts h
  rw [hevs, reserveApply_snd]
  constructor
  · intro hA
    simp [hA]
  · intro hA hW
    simp [hA, hW]

/-- C2 witness: the amended policy applied at `hazard1OnlyState` with
`reserve(64, align 4)`; the hypothesis holds by evaluation, and hazard 1
yields the blocking flush events. -/
theorem c2_hazard_decision_policy_witness :
    reserveChunkOfUploadBuffer 4 64 hazard1OnlyState =
      Except.ok
        ({ buf := { capacity := 256, offset := 64, prevSegStart := UINT_MAX,
                    currSegStart := 0 }, nextFenceValue := 8 }, 0,
         [CopyEvent.submit 7 10 0, CopyEvent.wait 7, CopyEvent.handout 0 64]) ∧
    ((reserveLogOf 4 64 hazard1OnlyState.buf).executeAllCopies = true →
      [CopyEvent.submit 7 10 0, CopyEvent.wait 7, CopyEvent.handout 0 64] =
        [CopyEvent.submit hazard1OnlyState.nextFenceValue
           hazard1OnlyState.buf.currSegStart
           (reserveLogOf 4 64 hazard1OnlyState.buf).alignedOffset,
         CopyEvent.wait hazard1OnlyState.nextFenceValue,
         CopyEvent.handout (reserveLogOf 4 64 hazard1OnlyState.buf).alignedOffset
           (reserveLogOf 4 64 hazard1OnlyState.buf).alignedEnd]) :=
  ⟨rfl,
   (c2_hazard_decision_policy 4 64 hazard1OnlyState
      { buf := { capacity := 256, offset := 64, prevSegStart := UINT_MAX,
                 currSegStart := 0 }, nextFenceValue := 8 } 0
      [CopyEvent.submit 7 10 0, CopyEvent.wait 7, CopyEvent.handout 0 64] rfl).1⟩

/-- Recognizer for batch-submission events. -/
def CopyEvent.isSubmitEv : CopyEvent → Bool
  | CopyEvent.submit _ _ _ => true
  | _ => false

/-- C3 counterexample: the "if and only if" is false on the code.  At
`hazard2OnlyState`, the candidate range `[0, 64)` does not cross
`currSegStart` (all three sub-cases are false, `executeAllCopies = false`),
yet a flush is triggered before the address is returned: the reserve call
emits `submit 5`. -/
theorem c3_flush_iff_counterexample :
    (reserveLogOf 4 64 hazard2OnlyState.buf).executeAllCopies = false ∧
    reserveChunkOfUploadBuffer 4 64 hazard2OnlyState =
      Except.ok
        ({ buf := { capacity := 256, offset := 64, prevSegStart := 0,
                    currSegStart := 0 }, nextFenceValue := 6 }, 0,
         [CopyEvent.submit 5 0 0, CopyEvent.wait 4, CopyEvent.handout 0 64]) ∧
    CopyEvent.submit 5 0 0 ∈
      [CopyEvent.submit 5 0 0, CopyEvent.wait 4, CopyEvent.handout 0 64] := by
  exact ⟨rfl, rfl, by simp⟩

/-- C3 (amended): a batch submission is triggered before the address is
returned if and only if the candidate range crosses `currSegStart` per the
three sub-cases A/B/C, or the previous-segment cases D/E hold; and in
Scenario C (capacity 256, `currSegStart = 10`, `offset = 240`,
`reserve(64)` wrapping to `[0, 64)`) exactly one batch submission occurs,
the handed-out address comes last, and post-call `currSegStart = 0`. -/
theorem c3_flush_condition_and_scenarioC (alignment size : Nat)
    (σ σ' : RendererState) (off : Nat) (evs : List CopyEvent)
    (h : reserveChunkOfUploadBuffer alignment size σ = Except.ok (σ', off, evs)) :
    ((∃ t ss se, CopyEvent.submit t ss se ∈ evs) ↔
      ((reserveLogOf alignment size σ.buf).executeAllCopies ||
       (reserveLogOf alignment size σ.buf).waitForPrevCopies) = true) ∧
    (reserveChunkOfUploadBuffer 4 64 hazard1OnlyState =
       Except.ok
         ({ buf := { capacity := 256, offset := 64, prevSegStart := UINT_MAX,
                     currSegStart := 0 }, nextFenceValue := 8 }, 0,
          [CopyEvent.submit 7 10 0, CopyEvent.wait 7, CopyEvent.handout 0 64]) ∧
     ([CopyEvent.submit 7 10 0, CopyEvent.wait 7,
       CopyEvent.handout 0 64].countP (fun e => e.isSubmitEv) = 1) ∧
     ([CopyEvent.submit 7 10 0, CopyEvent.wait 7,
       CopyEvent.handout 0 64].getLast? = some (CopyEvent.handout 0 64))) := by
  obtain ⟨-, -, -, -, hevs⟩ := reserve_ok_parts h
  refine ⟨?_, rfl, rfl, rfl⟩
  subst hevs
  rw [reserveApply_snd]
  constructor
  · rintro ⟨t, ss, se, hmem⟩
    by_contra hor
    simp only [Bool.not_eq_true, Bool.or_eq_false_iff] at hor
    simp [hor.1, hor.2] at hmem
  · intro hor
    rw [if_pos hor]
    exact ⟨σ.nextFenceValue, σ.buf.currSegStart,
           (reserveLogOf alignment size σ.buf).alignedOffset, by simp⟩

/-- C3 witness: the flush condition applied at `hazard2OnlyState` with
`reserve(64, align 4)`: a submission occurs there because case D holds. -/
theorem c3_flush_condition_witness :
    reserveChunkOfUploadBuffer 4 64 hazard2OnlyState =
      Except.ok
        ({ buf := { capacity := 256, offset := 64, prevSegStart := 0,
                    currSegStart := 0 }, nextFenceValue := 6 }, 0,
         [CopyEvent.submit 5 0 0, CopyEvent.wait 4, CopyEvent.handout 0 64]) ∧
    (∃ t ss se, CopyEvent.submit t ss se ∈
      [CopyEvent.submit 5 0 0, CopyEvent.wait 4, CopyEvent.handout 0 64]) :=
  ⟨rfl,
   ((c3_flush_condition_and_scenarioC 4 64 hazard2OnlyState
      { buf := { capacity := 256, offset := 64, prevSegStart := 0,
                 currSegStart := 0 }, nextFenceValue := 6 } 0
      [CopyEvent.submit 5 0 0, CopyEvent.wait 4, CopyEvent.handout 0 64]
      rfl).1).2 (by decide)⟩

/-- C4 counterexample: at `hazard2OnlyState`, the candidate range `[0, 64)`
crosses the valid `prevSegStart = 20` (`waitForPrevCopies = true`), but
after the call `prevSegStart` is 0 (the old `currSegStart`), not the
sentinel `UINT_MAX`: the claimed invalidation does not happen when hazard 2
fires without hazard 1. -/
theorem c4_prev_not_invalidated_counterexample :
    (reserveLogOf 4 64 hazard2OnlyState.buf).waitForPrevCopies = true ∧
    reserveChunkOfUploadBuffer 4 64 hazard2OnlyState =
      Except.ok
        ({ buf := { capacity := 256, offset := 64, prevSegStart := 0,
                    currSegStart := 0 }, nextFenceValue := 6 }, 0,
         [CopyEvent.submit 5 0 0, CopyEvent.wait 4, CopyEvent.handout 0 64]) ∧
    ¬(({ buf := { capacity := 256, offset := 64, prevSegStart := 0,
                  currSegStart := 0 }, nextFenceValue := 6 } :
        RendererState).buf.prevSegStart = UINT_MAX) := by
  exact ⟨rfl, rfl, by decide⟩

/-- C4 (amended): for every successful reserve call whose candidate range
crosses `prevSegStart` (cases D/E), when at least one batch has been
submitted before, the flush machinery performs a blocking wait on a fence
value covering the consumer's prior batch (`nextFenceValue - 1`) before the
address is returned (the handout is the last event); afterwards
`prevSegStart` is the sentinel exactly when hazard 1 also fired (blocking
flush), and otherwise the old `currSegStart`. -/
theorem c4_wait_hazard_behaviour (alignment size : Nat) (σ σ' : RendererState)
    (off : Nat) (evs : List CopyEvent)
    (h : reserveChunkOfUploadBuffer alignment size σ = Except.ok (σ', off, evs))
    (hW : (reserveLogOf alignment size σ.buf).waitForPrevCopies = true)
    (hF : 2 ≤ σ.nextFenceValue) :
    (∃ t', σ.nextFenceValue - 1 ≤ t' ∧ CopyEvent.wait t' ∈ evs.dropLast) ∧
    evs.getLast? = some (CopyEvent.handout
      (reserveLogOf alignment size σ.buf).alignedOffset
      (reserveLogOf alignment size σ.buf).alignedEnd) ∧
    σ'.buf.prevSegStart =
      (if (reserveLogOf alignment size σ.buf).executeAllCopies then UINT_MAX
       else σ.buf.currSegStart) := by
  obtain ⟨-, -, hst, -, hevs⟩ := reserve_ok_parts h
  have hflush : ((reserveLogOf alignment size σ.buf).executeAllCopies ||
      (reserveLogOf alignment size σ.buf).waitForPrevCopies) = true := by
    simp [hW]
  subst hevs hst
  rw [reserveApply_snd, if_pos hflush, reserveApply_fst, if_pos hflush]
  refine ⟨?_, ?_, rfl⟩
  · rw [List.dropLast_concat]
    rcases hA : (reserveLogOf alignment size σ.buf).executeAllCopies with _ | _
    · exact ⟨σ.nextFenceValue - 1, le_refl _, by simp [hA, hF]⟩
    · exact ⟨σ.nextFenceValue, by omega, by simp [hA]⟩
  · rw [List.getLast?_concat]

/-- C4 witness: the wait-hazard behaviour applied at `hazard2OnlyState` with
`reserve(64, align 4)`. -/
theorem c4_wait_hazard_behaviour_witness :
    reserveChunkOfUploadBuffer 4 64 hazard2OnlyState =
      Except.ok
        ({ buf := { capacity := 256, offset := 64, prevSegStart := 0,
                    currSegStart := 0 }, nextFenceValue := 6 }, 0,
         [CopyEvent.submit 5 0 0, CopyEvent.wait 4, CopyEvent.handout 0 64]) ∧
    ((∃ t', hazard2OnlyState.nextFenceValue - 1 ≤ t' ∧
        CopyEvent.wait t' ∈
          ([CopyEvent.submit 5 0 0, CopyEvent.wait 4,
            CopyEvent.handout 0 64] : List CopyEvent).dropLast) ∧
     ([CopyEvent.submit 5 0 0, CopyEvent.wait 4,
       CopyEvent.handout 0 64] : List CopyEvent).getLast? =
       some (CopyEvent.handout (reserveLogOf 4 64 hazard2OnlyState.buf).alignedOffset
         (reserveLogOf 4 64 hazard2OnlyState.buf).alignedEnd) ∧
     ({ buf := { capacity := 256, offset := 64, prevSegStart := 0,
                 currSegStart := 0 }, nextFenceValue := 6 } :
        RendererState).buf.prevSegStart =
       (if (reserveLogOf 4 64 hazard2OnlyState.buf).executeAllCopies then UINT_MAX
        else hazard2OnlyState.buf.currSegStart)) :=
  ⟨rfl,
   c4_wait_hazard_behaviour 4 64 hazard2OnlyState
     { buf := { capacity := 256, offset := 64, prevSegStart := 0,
                currSegStart := 0 }, nextFenceValue := 6 } 0
     [CopyEvent.submit 5 0 0, CopyEvent.wait 4, CopyEvent.handout 0 64]
     rfl rfl (by decide)⟩

/-! ## C5: cursor updates after a reserve call -/

/-- C5: after every successful reserve call, `offset = alignedEnd`; and if
the call triggered a flush, afterwards `currSegStart = alignedOffset` and
`prevSegStart` is the old `currSegStart` for a non-blocking flush, or the
sentinel `UINT_MAX` for a blocking flush (one that also waited,
`immediateCopy = executeAllCopies`). -/
theorem c5_cursor_updates (alignment size : Nat) (σ σ' : RendererState)
    (off : Nat) (evs : List CopyEvent)
    (h : reserveChunkOfUploadBuffer alignment size σ = Except.ok (σ', off, evs)) :
    σ'.buf.offset = (reserveLogOf alignment size σ.buf).alignedEnd ∧
    (((reserveLogOf alignment size σ.buf).executeAllCopies ||
      (reserveLogOf alignment size σ.buf).waitForPrevCopies) = true →
      σ'.buf.currSegStart = (reserveLogOf alignment size σ.buf).alignedOffset ∧
      σ'.buf.prevSegStart =
        (if (reserveLogOf alignment size σ.buf).executeAllCopies then UINT_MAX
         else σ.buf.currSegStart)) := by
  obtain ⟨-, -, hst, -, -⟩ := reserve_ok_parts h
  subst hst
  rw [reserveApply_fst]
  rcases hor : ((reserveLogOf alignment size σ.buf).executeAllCopies ||
      (reserveLogOf alignment size σ.buf).waitForPrevCopies) with _ | _
  · simp
  · simp

/-- C5 witness: the cursor updates at `hazard1OnlyState` with
`reserve(64, align 4)` (a blocking flush: `currSegStart` becomes 0,
`prevSegStart` the sentinel, `offset` 64). -/
theorem c5_cursor_updates_witness :
    reserveChunkOfUploadBuffer 4 64 hazard1OnlyState =
      Except.ok
        ({ buf := { capacity := 256, offset := 64, prevSegStart := UINT_MAX,
                    currSegStart := 0 }, nextFenceValue := 8 }, 0,
         [CopyEvent.submit 7 10 0, CopyEvent.wait 7, CopyEvent.handout 0 64]) ∧
    (({ buf := { capacity := 256, offset := 64, prevSegStart := UINT_MAX,
                 currSegStart := 0 }, nextFenceValue := 8 } :
       RendererState).buf.offset = (reserveLogOf 4 64 hazard1OnlyState.buf).alignedEnd ∧
     (((reserveLogOf 4 64 hazard1OnlyState.buf).executeAllCopies ||
       (reserveLogOf 4 64 hazard1OnlyState.buf).waitForPrevCopies) = true →
       ({ buf := { capacity := 256, offset := 64, prevSegStart := UINT_MAX,
                   currSegStart := 0 }, nextFenceValue := 8 } :
         RendererState).buf.currSegStart =
           (reserveLogOf 4 64 hazard1OnlyState.buf).alignedOffset ∧
       ({ buf := { capacity := 256, offset := 64, prevSegStart := UINT_MAX,
                   currSegStart := 0 }, nextFenceValue := 8 } :
         RendererState).buf.prevSegStart =
         (if (reserveLogOf 4 64 hazard1OnlyState.buf).executeAllCopies then UINT_MAX
          else hazard1OnlyState.buf.currSegStart))) :=
  ⟨rfl,
   c5_cursor_updates 4 64 hazard1OnlyState
     { buf := { capacity := 256, offset := 64, prevSegStart := UINT_MAX,
                currSegStart := 0 }, nextFenceValue := 8 } 0
     [CopyEvent.submit 7 10 0, CopyEvent.wait 7, CopyEvent.handout 0 64] rfl⟩

/-! ## C6: oversized requests are fatal -/

/-- C6: every reserve call whose size exceeds the buffer capacity terminates
with the fatal capacity diagnostic and never returns an address; the request
is never partially serviced or truncated. -/
theorem c6_oversized_request_fatal (alignment size : Nat) (σ : RendererState)
    (h : σ.buf.capacity < size) :
    reserveChunkOfUploadBuffer alignment size σ =
      Except.error "Insufficient upload buffer capacity" := by
  unfold reserveChunkOfUploadBuffer
  rw [if_neg (by omega)]
  dsimp only
  rw [if_pos ?_]
  rw [reserveLog_wrap]
  have h0 : (0 : Int) ≤ (roundUp σ.buf.offset alignment : Int) := Int.natCast_nonneg _
  have h1 : ((σ.buf.capacity : Int) - (roundUp σ.buf.offset alignment : Int)
      < (size : Int)) := by omega
  have h2 : ((σ.buf.capacity : Int) - (roundUp 0 alignment : Int) < (size : Int)) := by
    rw [roundUp_zero]
    omega
  simp [h1, h2]

/-- C6 witness: `reserve(300)` on a 256-byte buffer is fatal. -/
theorem c6_oversized_request_fatal_witness :
    (initState 256).buf.capacity < 300 ∧
    reserveChunkOfUploadBuffer 4 300 (initState 256) =
      Except.error "Insufficient upload buffer capacity" :=
  ⟨by decide, c6_oversized_request_fatal 4 300 (initState 256) (by decide)⟩

/-! ## C7: cursor bounds along reserve sequences -/

/-- C7 counterexample: the claimed strict invariant `offset < capacity` is
false.  One reserve call of the full capacity (4 bytes, alignment 1) from
the valid initial state leaves `offset = capacity = 4`. -/
theorem c7_offset_reaches_capacity_counterexample :
    runOps (initState 4) [CopyOp.reserve 1 4] =
      Except.ok
        ({ buf := { capacity := 4, offset := 4, prevSegStart := UINT_MAX,
                    currSegStart := 0 }, nextFenceValue := 1 },
         [CopyEvent.handout 0 4]) ∧
    ¬(({ buf := { capacity := 4, offset := 4, prevSegStart := UINT_MAX,
                  currSegStart := 0 }, nextFenceValue := 1 } :
        RendererState).buf.offset <
      ({ buf := { capacity := 4, offset := 4, prevSegStart := UINT_MAX,
                  currSegStart := 0 }, nextFenceValue := 1 } :
        RendererState).buf.capacity) :=
  ⟨rfl, by decide⟩

/-- The state invariant the allocator actually maintains across reserve
calls: `offset` in `[0, capacity]` (it equals `capacity` exactly when an
allocation ends at the buffer end), `currSegStart` in `[0, capacity)`, and
`prevSegStart` either in `[0, capacity)` or the sentinel. -/
def RingInvariant (σ : RendererState) : Prop :=
  σ.buf.offset ≤ σ.buf.capacity ∧
  σ.buf.currSegStart < σ.buf.capacity ∧
  (σ.buf.prevSegStart < σ.buf.capacity ∨ σ.buf.prevSegStart = UINT_MAX) ∧
  σ.buf.capacity < U32

theorem reserveLog_range_bounds {alignment size : Nat} {b : UploadRingBuffer}
    (hn : size ≠ 0) (hcap : b.capacity < U32)
    (hfail : ¬((reserveLogOf alignment size b).wrapAround = true ∧
      (b.capacity : Int) - (roundUp 0 alignment : Int) < (size : Int))) :
    (reserveLogOf alignment size b).alignedOffset < b.capacity ∧
    (reserveLogOf alignment size b).alignedEnd ≤ b.capacity := by
  rcases hw : (reserveLogOf alignment size b).wrapAround with _ | _
  · have hw2 := hw
    rw [reserveLog_wrap] at hw2
    simp only [decide_eq_false_iff_not, not_lt] at hw2
    have hle : roundUp b.offset alignment + size ≤ b.capacity := by omega
    rw [reserveLog_aO, reserveLog_aE, hw]
    simp only [Bool.false_eq_true, if_false]
    constructor
    · rw [Nat.mod_eq_of_lt (by omega : roundUp b.offset alignment < U32)]
      omega
    · rw [Nat.mod_eq_of_lt (by omega : roundUp b.offset alignment + size < U32)]
      omega
  · have hge : ¬ ((b.capacity : Int) - (roundUp 0 alignment : Int) < (size : Int)) :=
      fun hc => hfail ⟨hw, hc⟩
    rw [roundUp_zero] at hge
    have hszcap : size ≤ b.capacity := by omega
    rw [reserveLog_aO, reserveLog_aE, hw]
    simp only [if_true]
    rw [roundUp_zero]
    constructor
    · rw [Nat.mod_eq_of_lt (by omega : (0 : Nat) < U32)]
      omega
    · rw [Nat.mod_eq_of_lt (by omega : 0 + size < U32)]
      omega

theorem reserve_preserves_invariant {alignment size : Nat}
    {σ σ' : RendererState} {off : Nat} {evs : List CopyEvent}
    (h : reserveChunkOfUploadBuffer alignment size σ = Except.ok (σ', off, evs))
    (hinv : RingInvariant σ) : RingInvariant σ' := by
  obtain ⟨hoff, hcurr, hprev, hcap⟩ := hinv
  obtain ⟨hn, hfail, hst, -, -⟩ := reserve_ok_parts h
  obtain ⟨haO, haE⟩ := reserveLog_range_bounds hn hcap hfail
  subst hst
  rw [reserveApply_fst]
  rcases hor : ((reserveLogOf alignment size σ.buf).executeAllCopies ||
      (reserveLogOf alignment size σ.buf).waitForPrevCopies) with _ | _
  · exact ⟨haE, hcurr, hprev, hcap⟩
  · simp only [if_true]
    refine ⟨haE, haO, ?_, hcap⟩
    rcases hA : (reserveLogOf alignment size σ.buf).executeAllCopies with _ | _
    · simp only [Bool.false_eq_true, if_false]
      exact Or.inl hcurr
    · right
      simp

/-- A producer schedule consisting solely of reserve calls. -/
def ReserveOnly (ops : List CopyOp) : Prop :=
  ∀ op ∈ ops, ∃ a n, op = CopyOp.reserve a n

theorem runOps_reserve_invariant (ops : List CopyOp) :
    ∀ (σ σ' : RendererState) (E : List CopyEvent), ReserveOnly ops →
      RingInvariant σ → runOps σ ops = Except.ok (σ', E) → RingInvariant σ' := by
  induction ops with
  | nil =>
    intro σ σ' E _ hinv h
    simp only [runOps, Except.ok.injEq, Prod.mk.injEq] at h
    rw [← h.1]
    exact hinv
  | cons op ops ih =>
    intro σ σ' E hres hinv h
    obtain ⟨a, n, hop⟩ := hres op (List.mem_cons_self op ops)
    subst hop
    simp only [runOps, stepOp] at h
    rcases hr : reserveChunkOfUploadBuffer a n σ with e | ⟨σ1, off1, evs1⟩
    · rw [hr] at h
      simp [Except.map] at h
    · rw [hr] at h
      simp only [Except.map] at h
      rcases h2 : runOps σ1 ops with e | ⟨σ2, evs2⟩
      · rw [h2] at h
        simp at h
      · rw [h2] at h
        simp only [Except.ok.injEq, Prod.mk.injEq] at h
        have hinv1 := reserve_preserves_invariant hr hinv
        have := ih σ1 σ2 evs2 (fun o ho => hres o (List.mem_cons_of_mem _ ho)) hinv1 h2
        rw [← h.1]
        exact this

/-- C7 (amended): after any successful sequence of reserve calls from the
valid initial state, `offset` lies in `[0, capacity]` (it may equal
`capacity` when an allocation ends exactly at the buffer end),
`currSegStart` lies in `[0, capacity)`, and `prevSegStart` is either inside
`[0, capacity)` or the sentinel. -/
theorem c7_cursor_bounds (capacity : Nat) (ops : List CopyOp)
    (σ' : RendererState) (E : List CopyEvent)
    (hres : ReserveOnly ops) (hpos : 0 < capacity) (hcap : capacity < U32)
    (h : runOps (initState capacity) ops = Except.ok (σ', E)) :
    σ'.buf.offset ≤ σ'.buf.capacity ∧
    σ'.buf.currSegStart < σ'.buf.capacity ∧
    (σ'.buf.prevSegStart < σ'.buf.capacity ∨ σ'.buf.prevSegStart = UINT_MAX) := by
  have hinv0 : RingInvariant (initState capacity) :=
    ⟨Nat.zero_le _, hpos, Or.inr rfl, hcap⟩
  obtain ⟨h1, h2, h3, -⟩ := runOps_reserve_invariant ops _ _ _ hres hinv0 h
  exact ⟨h1, h2, h3⟩

/-- C7 witness: the bounds after the two-reserve schedule of the spec's
Scenario A (capacity 1024, `reserve(100)` then `reserve(200)`, alignment 4). -/
theorem c7_cursor_bounds_witness :
    runOps (initState 1024) [CopyOp.reserve 4 100, CopyOp.reserve 4 200] =
      Except.ok
        ({ buf := { capacity := 1024, offset := 300, prevSegStart := UINT_MAX,
                    currSegStart := 0 }, nextFenceValue := 1 },
         [CopyEvent.handout 0 100, CopyEvent.handout 100 300]) ∧
    (({ buf := { capacity := 1024, offset := 300, prevSegStart := UINT_MAX,
                 currSegStart := 0 }, nextFenceValue := 1 } :
       RendererState).buf.offset ≤ 1024 ∧ (300 : Nat) ≤ 1024) :=
  ⟨rfl, by
    have := c7_cursor_bounds 1024 [CopyOp.reserve 4 100, CopyOp.reserve 4 200]
      { buf := { capacity := 1024, offset := 300, prevSegStart := UINT_MAX,
                 currSegStart := 0 }, nextFenceValue := 1 }
      [CopyEvent.handout 0 100, CopyEvent.handout 100 300]
      (by
        intro op hop
        simp only [List.mem_cons, List.mem_singleton] at hop
        rcases hop with h | h | h
        · exact ⟨4, 100, h⟩
        · exact ⟨4, 200, h⟩
        · simp at h)
      (by decide) (by decide) rfl
    exact ⟨this.1, by decide⟩⟩

/-! ## C8: alignment and wrap-around arithmetic -/

/-- C8: for every reserve with positive size, power-of-two alignment and
size within capacity, the call succeeds; the aligned offset is
`roundUp(offset, alignment)` (a multiple of the alignment, at least
`offset` and less than `offset + alignment`) unless the remaining capacity
is insufficient, in which case the computation wraps
(`alignedOffset = roundUp(0, alignment)`, wrap flag set); and in
Scenario B (capacity 256, offset 240, `reserve(64, align 4)`) the result is
the aligned range `[0, 64)` with the wrap flag true. -/
theorem c8_align_and_wrap (alignment size : Nat) (σ : RendererState)
    (hpow : ∃ k, alignment = 2 ^ k) (hn : 0 < size)
    (hsz : size ≤ σ.buf.capacity) (hcap : σ.buf.capacity < U32) :
    (∃ r, reserveChunkOfUploadBuffer alignment size σ = Except.ok r) ∧
    ((reserveLogOf alignment size σ.buf).wrapAround =
       decide ((σ.buf.capacity : Int) - (roundUp σ.buf.offset alignment : Int)
         < (size : Int))) ∧
    ((reserveLogOf alignment size σ.buf).wrapAround = false →
       (reserveLogOf alignment size σ.buf).alignedOffset
           = roundUp σ.buf.offset alignment ∧
       σ.buf.offset ≤ (reserveLogOf alignment size σ.buf).alignedOffset ∧
       (reserveLogOf alignment size σ.buf).alignedOffset
           < σ.buf.offset + alignment ∧
       (reserveLogOf alignment size σ.buf).alignedOffset % alignment = 0) ∧
    ((reserveLogOf alignment size σ.buf).wrapAround = true →
       (reserveLogOf alignment size σ.buf).alignedOffset = roundUp 0 alignment) ∧
    (reserveLogOf 4 64 { capacity := 256, offset := 240, prevSegStart := UINT_MAX,
                         currSegStart := 0 } =
      { alignedOffset := 0, alignedEnd := 64, wrapAround := true,
        caseA := false, caseB := true, caseC := false, caseD := false,
        caseE := false }) := by
  have ha : 0 < alignment := by
    obtain ⟨k, hk⟩ := hpow
    subst hk
    exact Nat.pos_pow_of_pos k (by omega)
  refine ⟨?_, rfl, ?_, ?_, rfl⟩
  · unfold reserveChunkOfUploadBuffer
    rw [if_neg (by omega)]
    dsimp only
    have h2 : decide ((σ.buf.capacity : Int) - (roundUp 0 alignment : Int)
        < (size : Int)) = false := by
      rw [roundUp_zero]
      simp
      omega
    rw [if_neg (by simp [h2])]
    exact ⟨_, rfl⟩
  · intro hw
    rw [reserveLog_wrap] at hw
    simp only [decide_eq_false_iff_not, not_lt] at hw
    have hlt : roundUp σ.buf.offset alignment < U32 := by omega
    have haO : (reserveLogOf alignment size σ.buf).alignedOffset
        = roundUp σ.buf.offset alignment := by
      rw [reserveLog_aO]
      rw [show (reserveLogOf alignment size σ.buf).wrapAround = false from by
        rw [reserveLog_wrap]
        simp
        omega]
      simp [Nat.mod_eq_of_lt hlt]
    refine ⟨haO, ?_, ?_, ?_⟩
    · rw [haO]
      exact le_roundUp _ _ ha
    · rw [haO]
      have := roundUp_le σ.buf.offset alignment
      omega
    · rw [haO]
      exact roundUp_mod _ _
  · intro hw
    rw [reserveLog_aO, hw]
    simp [roundUp_zero]

/-- The Scenario B state: capacity 256, offset pre-advanced to 240. -/
def scenarioBState : RendererState :=
  { buf := { capacity := 256, offset := 240, prevSegStart := UINT_MAX,
             currSegStart := 0 },
    nextFenceValue := 1 }

/-- C8 witness: the arithmetic applied at the Scenario B state. -/
theorem c8_align_and_wrap_witness :
    ((∃ k, (4 : Nat) = 2 ^ k) ∧ (0 : Nat) < 64 ∧
     (64 : Nat) ≤ scenarioBState.buf.capacity ∧ scenarioBState.buf.capacity < U32) ∧
    ((reserveLogOf 4 64 scenarioBState.buf).wrapAround = true →
      (reserveLogOf 4 64 scenarioBState.buf).alignedOffset = roundUp 0 4) :=
  ⟨⟨⟨2, rfl⟩, by decide, by decide, by decide⟩,
   (c8_align_and_wrap 4 64 scenarioBState
     ⟨2, rfl⟩ (by decide) (by decide) (by decide)).2.2.2.1⟩

/-! ## C9: idempotence of back-to-back flushes -/

/-- A batch submission whose segment is non-empty (copy commands were
recorded since the previous flush, i.e. `currSegStart ≠ offset` at
submission time). -/
def CopyEvent.isNonemptyBatchEv : CopyEvent → Bool
  | CopyEvent.submit _ s e => decide (¬ s = e)
  | _ => false

/-- C9: two consecutive `executeCopyCommands` calls with no intervening
writes issue at most one non-empty batch submission: the first flush sets
`currSegStart := offset`, so the second submission covers the empty segment
from `offset` to `offset`. -/
theorem c9_flush_flush_one_nonempty_batch (σ : RendererState) (b1 b2 : Bool) :
    (((executeCopyCommands b1 σ).2 ++
      (executeCopyCommands b2 (executeCopyCommands b1 σ).1).2).countP
        (fun e => e.isNonemptyBatchEv)) ≤ 1 := by
  unfold executeCopyCommands executeCopyCommandsState
  dsimp only
  rw [List.countP_append]
  rcases b1 with _ | _ <;> rcases b2 with _ | _ <;>
    simp [List.countP_cons, CopyEvent.isNonemptyBatchEv] <;>
    split_ifs <;> simp_all

/-! ## C10: the sentinel previous segment never triggers a wait -/

/-- C10: when `prevSegStart` carries the sentinel `UINT_MAX` and the
candidate `alignedEnd` is at most `capacity < UINT_MAX`, both
previous-segment hazard checks (cases D and E) are false, so
`waitForPrevCopies` is false: a sentinel previous segment never triggers
the blocking-wait hazard. -/
theorem c10_sentinel_prev_no_wait (alignment size : Nat) (b : UploadRingBuffer)
    (hprev : b.prevSegStart = UINT_MAX)
    (hend : (reserveLogOf alignment size b).alignedEnd ≤ b.capacity)
    (hcap : b.capacity < UINT_MAX) :
    (reserveLogOf alignment size b).caseD = false ∧
    (reserveLogOf alignment size b).caseE = false ∧
    (reserveLogOf alignment size b).waitForPrevCopies = false := by
  have hlt : ¬ (b.prevSegStart < (reserveLogOf alignment size b).alignedEnd) := by
    rw [hprev]
    omega
  refine ⟨?_, ?_, ?_⟩
  · rw [reserveLog_caseD]
    simp [hlt]
  · rw [reserveLog_caseE]
    simp [hlt]
  · unfold ReserveLog.waitForPrevCopies
    rw [reserveLog_caseD, reserveLog_caseE]
    simp [hlt]

/-- C10 witness: the sentinel check at `hazard1OnlyState` (whose
`prevSegStart` is the sentinel; the candidate range `[0, 64)` wraps). -/
theorem c10_sentinel_prev_no_wait_witness :
    (hazard1OnlyState.buf.prevSegStart = UINT_MAX ∧
     (reserveLogOf 4 64 hazard1OnlyState.buf).alignedEnd ≤
       hazard1OnlyState.buf.capacity ∧
     hazard1OnlyState.buf.capacity < UINT_MAX) ∧
    (reserveLogOf 4 64 hazard1OnlyState.buf).caseD = false ∧
    (reserveLogOf 4 64 hazard1OnlyState.buf).caseE = false ∧
    (reserveLogOf 4 64 hazard1OnlyState.buf).waitForPrevCopies = false :=
  ⟨⟨rfl, by decide, by decide⟩,
   c10_sentinel_prev_no_wait 4 64 hazard1OnlyState.buf rfl (by decide) (by decide)⟩
